import Mathlib

/-!
Verification of the clawdbot-watchdog plugin core (`src/index.ts`).

The Lean definitions below are a shallow embedding of the TypeScript source:
pure helpers become Lean functions, the mutable closure state of
`createWatchdogService` (`failures`, `lastRecoverAt`, `lastStateOk`, `timer`)
becomes an explicit state record threaded through `tick`, and the external
world (probe subprocesses, the Rocket.Chat HTTP call, `Date.now()`) is
supplied as explicit per-tick inputs.  Thrown JavaScript exceptions are
modelled with `Except String` / an `Option String` error slot.
-/

namespace Watchdog

/-- Model of a JavaScript JSON value as produced by `JSON.parse`.
Numbers are modelled as integers (the fields the watchdog reads, `ok` and
`durationMs`, are booleans/integers in practice). -/
inductive J where
  | null
  | bool (b : Bool)
  | num (n : Int)
  | str (s : String)
  | arr (elems : List J)
  | obj (fields : List (String × J))

/-- The opening brace character, written via its code point. -/
def lbrace : Char := '\x7b'

/-- The closing brace character, written via its code point. -/
def rbrace : Char := '\x7d'

def isWsChar (c : Char) : Bool :=
  c = ' ' || c = '\n' || c = '\t' || c = '\r'

/-- Skip JSON whitespace, as `JSON.parse` does between tokens. -/
def skipWs : List Char → List Char
  | [] => []
  | c :: rest => if isWsChar c then skipWs rest else c :: rest

def hexVal (c : Char) : Option Nat :=
  if '0' ≤ c ∧ c ≤ '9' then some (c.toNat - '0'.toNat)
  else if 'a' ≤ c ∧ c ≤ 'f' then some (c.toNat - 'a'.toNat + 10)
  else if 'A' ≤ c ∧ c ≤ 'F' then some (c.toNat - 'A'.toNat + 10)
  else none

/-- Parse the body of a JSON string literal (the opening quote already
consumed), returning the decoded characters and the remaining input. -/
def parseStrBody (fuel : Nat) (cs : List Char) : Option (List Char × List Char) :=
  match fuel, cs with
  | 0, _ => none
  | _, [] => none
  | fuel + 1, c :: rest =>
    if c = '"' then some ([], rest)
    else if c = '\\' then
      match rest with
      | [] => none
      | e :: rest2 =>
        if e = '"' then (parseStrBody fuel rest2).map (fun p => ('"' :: p.1, p.2))
        else if e = '\\' then (parseStrBody fuel rest2).map (fun p => ('\\' :: p.1, p.2))
        else if e = '/' then (parseStrBody fuel rest2).map (fun p => ('/' :: p.1, p.2))
        else if e = 'n' then (parseStrBody fuel rest2).map (fun p => ('\n' :: p.1, p.2))
        else if e = 't' then (parseStrBody fuel rest2).map (fun p => ('\t' :: p.1, p.2))
        else if e = 'r' then (parseStrBody fuel rest2).map (fun p => ('\r' :: p.1, p.2))
        else if e = 'b' then (parseStrBody fuel rest2).map (fun p => (Char.ofNat 8 :: p.1, p.2))
        else if e = 'f' then (parseStrBody fuel rest2).map (fun p => (Char.ofNat 12 :: p.1, p.2))
        else if e = 'u' then
          match rest2 with
          | a :: b :: c2 :: d :: rest3 =>
            match hexVal a, hexVal b, hexVal c2, hexVal d with
            | some ha, some hb, some hc, some hd =>
              (parseStrBody fuel rest3).map
                (fun p => (Char.ofNat (((ha * 16 + hb) * 16 + hc) * 16 + hd) :: p.1, p.2))
            | _, _, _, _ => none
          | _ => none
        else none
    else if c.toNat < 32 then none
    else (parseStrBody fuel rest).map (fun p => (c :: p.1, p.2))

def digitsToNat (acc : Nat) : List Char → Nat × List Char
  | [] => (acc, [])
  | c :: rest =>
    if c.isDigit then digitsToNat (acc * 10 + (c.toNat - '0'.toNat)) rest
    else (acc, c :: rest)

/-- Parse a JSON integer literal.  Fractional or exponent forms are outside
the modelled subset and are rejected. -/
def parseNumber (cs : List Char) : Option (Int × List Char) :=
  let p := match cs with
    | c :: rest => if c = '-' then (true, rest) else (false, cs)
    | [] => (false, cs)
  match p.2 with
  | c :: _ =>
    if c.isDigit then
      let d := digitsToNat 0 p.2
      match d.2 with
      | e :: _ =>
        if e = '.' ∨ e = 'e' ∨ e = 'E' then none
        else some ((if p.1 then -(d.1 : Int) else (d.1 : Int)), d.2)
      | [] => some ((if p.1 then -(d.1 : Int) else (d.1 : Int)), d.2)
    else none
  | [] => none

mutual

/-- Recursive-descent JSON value parser modelling `JSON.parse` on the
subset of JSON the watchdog consumes.  `fuel` bounds recursion depth. -/
def parseVal : Nat → List Char → Option (J × List Char)
  | 0, _ => none
  | fuel + 1, cs =>
    match skipWs cs with
    | [] => none
    | c :: rest =>
      if c = lbrace then
        match skipWs rest with
        | d :: rest2 => if d = rbrace then some (.obj [], rest2) else parseFields fuel (d :: rest2) []
        | [] => none
      else if c = '[' then
        match skipWs rest with
        | d :: rest2 => if d = ']' then some (.arr [], rest2) else parseElems fuel (d :: rest2) []
        | [] => none
      else if c = '"' then
        match parseStrBody (rest.length + 1) rest with
        | some (content, rest2) => some (.str ⟨content⟩, rest2)
        | none => none
      else if c = 't' then
        match rest with
        | 'r' :: 'u' :: 'e' :: rest2 => some (.bool true, rest2)
        | _ => none
      else if c = 'f' then
        match rest with
        | 'a' :: 'l' :: 's' :: 'e' :: rest2 => some (.bool false, rest2)
        | _ => none
      else if c = 'n' then
        match rest with
        | 'u' :: 'l' :: 'l' :: rest2 => some (.null, rest2)
        | _ => none
      else
        match parseNumber (c :: rest) with
        | some (n, rest2) => some (.num n, rest2)
        | none => none

/-- Parse the elements of a JSON array after its first element position. -/
def parseElems : Nat → List Char → List J → Option (J × List Char)
  | 0, _, _ => none
  | fuel + 1, cs, acc =>
    match parseVal fuel cs with
    | none => none
    | some (v, rest) =>
      match skipWs rest with
      | c :: rest2 =>
        if c = ',' then parseElems fuel rest2 (v :: acc)
        else if c = ']' then some (.arr (v :: acc).reverse, rest2)
        else none
      | [] => none

/-- Parse the fields of a JSON object after its first key position. -/
def parseFields : Nat → List Char → List (String × J) → Option (J × List Char)
  | 0, _, _ => none
  | fuel + 1, cs, acc =>
    match skipWs cs with
    | c :: rest =>
      if c = '"' then
        match parseStrBody (rest.length + 1) rest with
        | some (key, rest2) =>
          match skipWs rest2 with
          | d :: rest3 =>
            if d = ':' then
              match parseVal fuel rest3 with
              | some (v, rest4) =>
                match skipWs rest4 with
                | e :: rest5 =>
                  if e = ',' then parseFields fuel rest5 ((⟨key⟩, v) :: acc)
                  else if e = rbrace then some (.obj ((⟨key⟩, v) :: acc).reverse, rest5)
                  else none
                | [] => none
              | none => none
            else none
          | [] => none
        | none => none
      else none
    | [] => none

end

/-- Model of the JavaScript builtin `JSON.parse`: parse one value, allow
trailing whitespace only. -/
def jsonParse (s : String) : Option J :=
  match parseVal (s.toList.length + 2) s.toList with
  | some (v, rest) => if skipWs rest = [] then some v else none
  | none => none

/-- Index of the first occurrence of `c`, as `String.prototype.indexOf`. -/
def firstIdxOfAux (c : Char) : List Char → Option Nat
  | [] => none
  | x :: rest => if x = c then some 0 else (firstIdxOfAux c rest).map (· + 1)

/-- Index of the last occurrence of `c`, as `String.prototype.lastIndexOf`. -/
def lastIdxOfAux (c : Char) : List Char → Option Nat
  | [] => none
  | x :: rest =>
    match lastIdxOfAux c rest with
    | some j => some (j + 1)
    | none => if x = c then some 0 else none

/-- Embedding of `extractLastJsonObject` from `src/index.ts`: parse the text
from its last opening brace; on failure fall back to the slice from the
first opening brace to the last closing brace; the `JSON.parse` inside the
catch block may itself throw (a syntax error), which propagates.  The
`parse` argument stands for the `JSON.parse` collaborator. -/
def extractLastJsonObject (parse : String → Option J) (text : String) : Except String J :=
  let cs := text.toList
  match lastIdxOfAux lbrace cs with
  | none => .error "no JSON object found in output"
  | some start =>
    match parse ⟨cs.drop start⟩ with
    | some v => .ok v
    | none =>
      match firstIdxOfAux lbrace cs, lastIdxOfAux rbrace cs with
      | some s2, some e2 =>
        if s2 < e2 then
          match parse ⟨(cs.take (e2 + 1)).drop s2⟩ with
          | some v => .ok v
          | none => .error "JSON syntax error"
        else .error "failed to parse JSON output"
      | _, _ => .error "failed to parse JSON output"

example : jsonParse "\x7b\"ok\":true\x7d" = some (.obj [("ok", .bool true)]) := rfl

example : jsonParse " \x7b\"ok\":false,\"durationMs\":42\x7d " =
    some (.obj [("ok", .bool false), ("durationMs", .num 42)]) := rfl

example : jsonParse "banner \x7b\"ok\":true\x7d" = none := rfl

example :
    extractLastJsonObject jsonParse "doctor banner\n\x7b\"ok\":true\x7d" =
      .ok (.obj [("ok", .bool true)]) := rfl

example :
    extractLastJsonObject jsonParse "pre \x7b\"a\":\x7b\"b\":1\x7d\x7d" =
      .ok (.obj [("a", .obj [("b", .num 1)])]) := rfl

example :
    extractLastJsonObject jsonParse "no braces here" =
      .error "no JSON object found in output" := rfl

/-! ## Health prober (`runGatewayHealth` / `checkHealth`) -/

/-- Truthiness of an optional JSON field, as JavaScript `Boolean(x)`
applied to a possibly-missing property. -/
def truthyOpt : Option J → Bool
  | none => false
  | some .null => false
  | some (.bool b) => b
  | some (.num n) => n != 0
  | some (.str s) => s != ""
  | some (.arr _) => true
  | some (.obj _) => true

/-- JavaScript property access `j?.k` on a parsed JSON value. -/
def jField : J → String → Option J
  | .obj fields, k => fields.lookup k
  | _, _ => none

/-- The `typeof json?.durationMs === "number"` read in `checkHealth`. -/
def jNumField (j : J) (k : String) : Option Int :=
  match jField j k with
  | some (.num n) => some n
  | _ => none

/-- Embedding of `runGatewayHealth`: the exec outcome of
`<bin> gateway health --json` is either a thrown error (non-zero exit,
timeout) or a pair (stdout, stderr); on success the combined output is fed
to `extractLastJsonObject`. -/
def runGatewayHealth (ex : Except String (String × String)) : Except String J :=
  match ex with
  | .error e => .error e
  | .ok p => extractLastJsonObject jsonParse (p.1 ++ "\n" ++ p.2)

structure HealthOutcome where
  ok : Bool
  meta : String
deriving DecidableEq

def durMeta (j : J) : String :=
  match jNumField j "durationMs" with
  | some d => " durationMs=" ++ toString d
  | none => ""

/-- The `{ ok, meta }` record `checkHealth` builds from a parsed result. -/
def healthOutcomeOf (bin : String) (j : J) : HealthOutcome :=
  { ok := truthyOpt (jField j "ok"), meta := bin ++ durMeta j }

/-- The fixed backend priority order of `checkHealth`. -/
def backendBins : List String := ["clawdbot", "openclaw"]

/-- Loop body of `checkHealth`: try each backend in order, remember the
last error; if none succeeds, throw the last error
(`lastErr ?? "health failed"`). -/
def checkHealthGo : List (String × Except String (String × String)) → Option String →
    Except String HealthOutcome
  | [], lastErr => .error (lastErr.getD "health failed")
  | (bin, ex) :: rest, lastErr =>
    match runGatewayHealth ex with
    | .ok j => .ok (healthOutcomeOf bin j)
    | .error e =>
      let _ := lastErr
      checkHealthGo rest (some e)

/-- Embedding of `checkHealth`, parameterised by the exec outcome of each
backend attempt (in the fixed priority order). -/
def checkHealth (execs : List (String × Except String (String × String))) :
    Except String HealthOutcome :=
  checkHealthGo execs none

/-! ## Rocket.Chat account resolution (`resolveRocketChatAccount`) -/

/-- Raw credential fields as found in the configuration tree; `none`
models an absent (`undefined`) property. -/
structure RcRec where
  baseUrl : Option String
  userId : Option String
  authToken : Option String
deriving DecidableEq

/-- The `channels.rocketchat` subtree: credential fields directly on the
record, plus the optional `accounts.default` entry. -/
structure RcCfg where
  flat : RcRec
  accountsDefault : Option RcRec
deriving DecidableEq

structure RcAccount where
  baseUrl : String
  userId : String
  authToken : String
deriving DecidableEq

/-- JavaScript truthiness of an optional string property. -/
def truthyStr : Option String → Bool
  | none => false
  | some s => s != ""

/-- The `r.baseUrl && r.userId && r.authToken` validity test. -/
def validRec (r : RcRec) : Bool :=
  truthyStr r.baseUrl && truthyStr r.userId && truthyStr r.authToken

def credsOf (r : RcRec) : RcAccount :=
  { baseUrl := r.baseUrl.getD "", userId := r.userId.getD "", authToken := r.authToken.getD "" }

/-- Embedding of `resolveRocketChatAccount`: `base` is the flat record if
its fields are truthy, and `resolved` is `accounts.default` when that entry
exists with truthy fields, otherwise `base`. -/
def resolveRocketChatAccount : Option RcCfg → Option RcAccount
  | none => none
  | some rc =>
    let base : Option RcRec := if validRec rc.flat then some rc.flat else none
    let resolved : Option RcRec :=
      match rc.accountsDefault with
      | some acct => if validRec acct then some acct else base
      | none => base
    resolved.map credsOf

/-! ## Alert sink (`doAlert`) -/

structure AlertCfg where
  channel : String
  /-- The `alert.to` destination (`to` is a reserved token in Lean). -/
  toAddr : String
deriving DecidableEq

/-- Which syntactic `doAlert` call site inside `tick` emitted an alert. -/
inductive AlertKind where
  | statusRecovered
  | statusFailure
  | attemptRecovery
  | recoveryFailed
deriving DecidableEq

/-- Observable effects of a tick: `alertCall` marks an invocation of
`doAlert` with the given text, the log events mirror `ctx.logger` calls,
`send` marks an outgoing `sendRocketChat` delivery, and `execCall` marks a
recovery subprocess invocation. -/
inductive Ev where
  | alertCall (k : AlertKind) (text : String)
  | logInfo (m : String)
  | logWarn (m : String)
  | send (dest : String) (text : String)
  | execCall (bin : String) (args : List String)
deriving DecidableEq

/-- Embedding of the `doAlert` closure.  `sendRes` is the outcome of the
`sendRocketChat` call when it is made (its `.error` case covers missing
credentials, network errors and non-2xx responses, all of which throw).
Returns the emitted events and the escaped exception, if any. -/
def doAlert (a : AlertCfg) (sendRes : Except String Unit) (k : AlertKind) (text : String) :
    List Ev × Option String :=
  if a.toAddr = "" then ([.alertCall k text, .logInfo text], none)
  else if a.channel ≠ "rocketchat" then
    ([.alertCall k text,
      .logWarn ("watchdog: unsupported alert.channel=" ++ a.channel ++ "; logging only"),
      .logInfo text], none)
  else
    match sendRes with
    | .ok _ => ([.alertCall k text, .send a.toAddr text], none)
    | .error e => ([.alertCall k text, .send a.toAddr text], some e)

/-! ## Watchdog state machine (`tick`) -/

/-- The mutable closure state of `createWatchdogService`:
`failures`, `lastRecoverAt` (milliseconds, initialised to `0`), and the
tri-state `lastStateOk` (`null` / `true` / `false`). -/
structure WdState where
  failures : Nat
  lastRecoverAt : Int
  lastStateOk : Option Bool
deriving DecidableEq

def initState : WdState := { failures := 0, lastRecoverAt := 0, lastStateOk := none }

/-- The configuration values `start` captures for `tick`. -/
structure TickCfg where
  threshold : Nat
  cooldownMs : Int
  alert : AlertCfg
  recoverEnabled : Bool
  recoverAction : String
deriving DecidableEq

/-- Per-tick external inputs: the `checkHealth` outcome, the outcome of
the i-th `sendRocketChat` call of this tick, the recovery subprocess
outcome, `Date.now()` and the ISO timestamp used by `formatStatus`. -/
structure TickEnv where
  probe : Except String HealthOutcome
  sendRes : Nat → Except String Unit
  execRes : Except String Unit
  now : Int
  nowIso : String

/-- Result of one tick: the new closure state, the emitted events, and the
exception that escaped the tick (`none` when the tick ran to completion). -/
structure StepOut where
  st : WdState
  evs : List Ev
  err : Option String
deriving DecidableEq

/-- Embedding of `formatStatus`. -/
def formatStatus (name : String) (ok : Bool) (meta : Option String) (ts : String) : String :=
  "watchdog: " ++ name ++ (if ok then " OK" else " DOWN") ++
    (match meta with
     | some m => if m = "" then "" else " (" ++ m ++ ")"
     | none => "") ++ " @ " ++ ts

/-- The `try { checkHealth } catch` prologue of `tick`: a thrown probe
error becomes `ok = false` with the error message as `meta`. -/
def probeOutcome : Except String HealthOutcome → Bool × String
  | .ok h => (h.ok, h.meta)
  | .error e => (false, e)

def probeOk (env : TickEnv) : Bool := (probeOutcome env.probe).1

/-- The recovery subprocess dispatch inside `tick`: `gateway-restart` runs
`clawdbot gateway restart`; any other action identifier throws without any
process invocation. -/
def execRecovery (cfg : TickCfg) (env : TickEnv) : List Ev × Option String :=
  if cfg.recoverAction = "gateway-restart" then
    ([.execCall "clawdbot" ["gateway", "restart"]],
     match env.execRes with
     | .ok _ => none
     | .error e => some e)
  else ([], some ("unknown recover.action: " ++ cfg.recoverAction))

/-- The "attempting recovery" alert text. -/
def attemptText (cfg : TickCfg) (st1 : WdState) : String :=
  "watchdog: attempting recovery: " ++ cfg.recoverAction ++
    " (failures=" ++ toString st1.failures ++ ")"

/-- The recovery section of `tick`, entered with the already-updated
failure count `st1`: gate on `recover.enabled` and the threshold, return
early inside the cooldown window, record `lastRecoverAt = now` before the
executor runs, alert, run the executor, and alert again on its failure. -/
def recoveryStep (cfg : TickCfg) (env : TickEnv) (st1 : WdState) : StepOut :=
  if cfg.recoverEnabled = true ∧ cfg.threshold ≤ st1.failures then
    if env.now - st1.lastRecoverAt < cfg.cooldownMs then ⟨st1, [], none⟩
    else
      match doAlert cfg.alert (env.sendRes 1) .attemptRecovery (attemptText cfg st1) with
      | (evs2, some e) => ⟨{ st1 with lastRecoverAt := env.now }, evs2, some e⟩
      | (evs2, none) =>
        match execRecovery cfg env with
        | (evs3, none) => ⟨{ st1 with lastRecoverAt := env.now }, evs2 ++ evs3, none⟩
        | (evs3, some e) =>
          match doAlert cfg.alert (env.sendRes 2) .recoveryFailed
              ("watchdog: recovery failed: " ++ e) with
          | (evs4, err4) =>
            ⟨{ st1 with lastRecoverAt := env.now }, evs2 ++ evs3 ++ evs4, err4⟩
  else ⟨st1, [], none⟩

/-- The diagnostic detail of a failure alert:
`failures=⟦n⟧` followed by the probe meta when non-empty. -/
def failDetail (meta : String) (n : Nat) : String :=
  "failures=" ++ toString n ++ (if meta = "" then "" else ": " ++ meta)

/-- The body of `tick` after the probe prologue, on the probe outcome
`(ok, meta)`. -/
def tickCore (cfg : TickCfg) (env : TickEnv) (st : WdState) : Bool × String → StepOut
  | (true, _) =>
    if st.lastStateOk = some false then
      match doAlert cfg.alert (env.sendRes 0) .statusRecovered
          (formatStatus "gateway" true none env.nowIso) with
      | (evs, some e) => ⟨st, evs, some e⟩
      | (evs, none) => ⟨{ st with failures := 0, lastStateOk := some true }, evs, none⟩
    else ⟨{ st with failures := 0, lastStateOk := some true }, [], none⟩
  | (false, meta) =>
    match
      (if st.failures + 1 = 1 ∨ st.failures + 1 = cfg.threshold then
        doAlert cfg.alert (env.sendRes 0) .statusFailure
          (formatStatus "gateway" false (some (failDetail meta (st.failures + 1))) env.nowIso)
      else ([], none)) with
    | (evs1, some e) =>
      ⟨{ st with failures := st.failures + 1, lastStateOk := some false }, evs1, some e⟩
    | (evs1, none) =>
      match recoveryStep cfg env
          { st with failures := st.failures + 1, lastStateOk := some false } with
      | ⟨st2, evs2, err⟩ => ⟨st2, evs1 ++ evs2, err⟩

/-- Embedding of one `tick`. -/
def tick (cfg : TickCfg) (env : TickEnv) (st : WdState) : StepOut :=
  tickCore cfg env st (probeOutcome env.probe)

/-- `void tick()` on an interval: each tick runs to its end or to its
escaped exception; either way the timer fires the next tick on the
carried-over closure state. -/
def runTicks (cfg : TickCfg) : List TickEnv → WdState → WdState
  | [], st => st
  | e :: rest, st => runTicks cfg rest (tick cfg e st).st

/-- Trace variant of `runTicks` recording `Date.now()` and the events of
each tick. -/
def runEvents (cfg : TickCfg) : List TickEnv → WdState → List (Int × List Ev)
  | [], _ => []
  | e :: rest, st => (e.now, (tick cfg e st).evs) :: runEvents cfg rest (tick cfg e st).st

/-- All `sendRocketChat` calls of this tick succeed. -/
def AlertOk (env : TickEnv) : Prop := ∀ i, env.sendRes i = .ok ()

def isAttemptEv : Ev → Bool
  | .alertCall .attemptRecovery _ => true
  | _ => false

/-- A recovery attempt is observable as the "attempting recovery" alert. -/
def attemptedIn (evs : List Ev) : Bool := evs.any isAttemptEv

/-- The `Date.now()` values of the ticks that attempted recovery. -/
def attemptTimes (l : List (Int × List Ev)) : List Int :=
  (l.filter fun p => attemptedIn p.2).map Prod.fst

/-- Number of consecutive unhealthy outcomes at the end of a history. -/
def trailingFailures (l : List Bool) : Nat :=
  (l.reverse.takeWhile (fun b => !b)).length

/-! ## Scheduler handle (`start` / `stop`) -/

/-- The service closure: the `timer` slot plus the watchdog state. -/
structure ServiceState where
  timer : Option Unit
  wd : WdState
deriving DecidableEq

def initialService : ServiceState := { timer := none, wd := initState }

/-- `start` arms the repeating timer unless the watchdog is disabled
(`if (!pcfg?.enabled) return`). -/
def startService (enabled : Bool) (s : ServiceState) : ServiceState :=
  if enabled then { s with timer := some () } else s

/-- Embedding of `stop`: clear the interval if armed, and null the slot. -/
def stopService (s : ServiceState) : ServiceState := { s with timer := none }

/-- Ticks keep being scheduled exactly while the interval handle is
registered; `clearInterval` deregisters it. -/
def ticksScheduled (s : ServiceState) : Bool := s.timer.isSome

section ScenarioChecks

/-- A failing-probe tick environment with all external calls succeeding. -/
def envFailAt (t : Int) : TickEnv :=
  { probe := .error "probe down", sendRes := fun _ => .ok (), execRes := .ok (),
    now := t, nowIso := "TS" }

/-- A healthy-probe tick environment with all external calls succeeding. -/
def envOkAt (t : Int) : TickEnv :=
  { probe := .ok { ok := true, meta := "clawdbot" }, sendRes := fun _ => .ok (),
    execRes := .ok (), now := t, nowIso := "TS" }

def cfgLogOnly : TickCfg :=
  { threshold := 3, cooldownMs := 0, alert := { channel := "rocketchat", toAddr := "" },
    recoverEnabled := true, recoverAction := "gateway-restart" }

def cfgCooldown : TickCfg := { cfgLogOnly with cooldownMs := 600000 }

example :
    attemptTimes (runEvents cfgLogOnly
      [envFailAt 1000, envFailAt 2000, envFailAt 3000, envFailAt 4000] initState) =
      [3000, 4000] := by decide

example :
    attemptTimes (runEvents cfgCooldown
      [envFailAt 1700000000000, envFailAt 1700000060000, envFailAt 1700000120000,
       envFailAt 1700000180000, envFailAt 1700000240000] initState) =
      [1700000120000] := by decide

example :
    (runTicks cfgLogOnly [envFailAt 1, envFailAt 2, envOkAt 3] initState).failures = 0 := by
  decide

example :
    ((runEvents cfgLogOnly [envFailAt 1, envFailAt 2, envOkAt 3] initState).map
      fun p => p.2.any fun ev =>
        match ev with
        | .alertCall _ _ => true
        | _ => false) = [true, false, true] := by decide

end ScenarioChecks

/-! ## Lemmas about the alert sink -/

theorem doAlert_alertCall_mem (a : AlertCfg) (r : Except String Unit) (k : AlertKind)
    (t : String) : Ev.alertCall k t ∈ (doAlert a r k t).1 := by
  unfold doAlert
  split
  · simp
  · split
    · simp
    · cases r <;> simp

theorem doAlert_mem_alertCall {a : AlertCfg} {r : Except String Unit} {k k' : AlertKind}
    {t t' : String} (h : Ev.alertCall k' t' ∈ (doAlert a r k t).1) : k' = k ∧ t' = t := by
  unfold doAlert at h
  split at h
  · simp at h
    exact h
  · split at h
    · simp at h
      exact h
    · cases r <;> simp at h <;> exact h

theorem doAlert_no_execCall (a : AlertCfg) (r : Except String Unit) (k : AlertKind)
    (t : String) (b : String) (args : List String) :
    Ev.execCall b args ∉ (doAlert a r k t).1 := by
  unfold doAlert
  split
  · simp
  · split
    · simp
    · cases r <;> simp

theorem doAlert_snd_eq_none (a : AlertCfg) (k : AlertKind) (t : String) :
    (doAlert a (.ok ()) k t).2 = none := by
  unfold doAlert
  split
  · rfl
  · split <;> rfl

theorem doAlert_attemptedIn (a : AlertCfg) (r : Except String Unit) (k : AlertKind)
    (t : String) : attemptedIn (doAlert a r k t).1 = isAttemptEv (Ev.alertCall k t) := by
  unfold doAlert
  split
  · simp [attemptedIn, isAttemptEv]
  · split
    · simp [attemptedIn, isAttemptEv]
    · cases r <;> simp [attemptedIn, isAttemptEv]

theorem isAttemptEv_alertCall (k : AlertKind) (t : String) :
    isAttemptEv (Ev.alertCall k t) = (match k with | .attemptRecovery => true | _ => false) := by
  cases k <;> rfl

theorem doAlert_pair_alertCall_mem {a : AlertCfg} {r : Except String Unit} {k : AlertKind}
    {t : String} {evs : List Ev} {err : Option String} (heq : doAlert a r k t = (evs, err)) :
    Ev.alertCall k t ∈ evs := by
  have h := doAlert_alertCall_mem a r k t
  rw [heq] at h
  exact h

theorem doAlert_pair_mem_alertCall {a : AlertCfg} {r : Except String Unit} {k k' : AlertKind}
    {t t' : String} {evs : List Ev} {err : Option String}
    (heq : doAlert a r k t = (evs, err)) (h : Ev.alertCall k' t' ∈ evs) :
    k' = k ∧ t' = t := by
  apply @doAlert_mem_alertCall a r k k' t t'
  rw [heq]
  exact h

theorem attemptedIn_of_mem {l : List Ev} {t : String}
    (h : Ev.alertCall .attemptRecovery t ∈ l) : attemptedIn l = true := by
  unfold attemptedIn
  rw [List.any_eq_true]
  exact ⟨_, h, rfl⟩

theorem attemptedIn_append (l1 l2 : List Ev) :
    attemptedIn (l1 ++ l2) = (attemptedIn l1 || attemptedIn l2) :=
  List.any_append

theorem execRecovery_no_alertCall (cfg : TickCfg) (env : TickEnv) (k : AlertKind)
    (t : String) : Ev.alertCall k t ∉ (execRecovery cfg env).1 := by
  unfold execRecovery
  split
  · cases env.execRes <;> simp
  · simp

theorem execRecovery_not_attempted (cfg : TickCfg) (env : TickEnv) :
    attemptedIn (execRecovery cfg env).1 = false := by
  unfold execRecovery
  split
  · cases env.execRes <;> rfl
  · rfl

/-! ## Lemmas about the recovery section -/

theorem execRecovery_unknown {cfg : TickCfg} (env : TickEnv)
    (h : cfg.recoverAction ≠ "gateway-restart") :
    execRecovery cfg env = ([], some ("unknown recover.action: " ++ cfg.recoverAction)) := by
  unfold execRecovery
  simp [h]

theorem execRecovery_restart {cfg : TickCfg} (env : TickEnv)
    (h : cfg.recoverAction = "gateway-restart") :
    (execRecovery cfg env).1 = [Ev.execCall "clawdbot" ["gateway", "restart"]] := by
  unfold execRecovery
  simp [h]

theorem recoveryStep_not_triggered {cfg : TickCfg} {env : TickEnv} {st1 : WdState}
    (h : ¬(cfg.recoverEnabled = true ∧ cfg.threshold ≤ st1.failures)) :
    recoveryStep cfg env st1 = ⟨st1, [], none⟩ := by
  unfold recoveryStep
  simp [h]

theorem recoveryStep_cooldown {cfg : TickCfg} {env : TickEnv} {st1 : WdState}
    (h : env.now - st1.lastRecoverAt < cfg.cooldownMs) :
    recoveryStep cfg env st1 = ⟨st1, [], none⟩ := by
  unfold recoveryStep
  split
  · simp [h]
  · rfl

theorem recoveryStep_st_cases (cfg : TickCfg) (env : TickEnv) (st1 : WdState) :
    (recoveryStep cfg env st1).st = st1 ∨
      (recoveryStep cfg env st1).st = { st1 with lastRecoverAt := env.now } := by
  unfold recoveryStep
  split
  · split
    · left
      rfl
    · split
      · right
        rfl
      · split
        · right
          rfl
        · right
          rfl
  · left
    rfl

theorem recoveryStep_failures (cfg : TickCfg) (env : TickEnv) (st1 : WdState) :
    (recoveryStep cfg env st1).st.failures = st1.failures := by
  rcases recoveryStep_st_cases cfg env st1 with h | h <;> rw [h]

theorem recoveryStep_lastStateOk (cfg : TickCfg) (env : TickEnv) (st1 : WdState) :
    (recoveryStep cfg env st1).st.lastStateOk = st1.lastStateOk := by
  rcases recoveryStep_st_cases cfg env st1 with h | h <;> rw [h]

theorem recoveryStep_attemptedIn (cfg : TickCfg) (env : TickEnv) (st1 : WdState) :
    attemptedIn (recoveryStep cfg env st1).evs = true ↔
      (cfg.recoverEnabled = true ∧ cfg.threshold ≤ st1.failures ∧
        cfg.cooldownMs ≤ env.now - st1.lastRecoverAt) := by
  unfold recoveryStep
  split
  · rename_i hg
    split
    · rename_i hc
      constructor
      · intro h'
        simp [attemptedIn] at h'
      · rintro ⟨h1, h2, h3⟩
        omega
    · rename_i hc
      constructor
      · intro _
        exact ⟨hg.1, hg.2, by omega⟩
      · intro _
        split
        · rename_i evs2 e heq
          exact attemptedIn_of_mem (doAlert_pair_alertCall_mem heq)
        · rename_i evs2 heq
          split
          · rename_i evs3 heq3
            simp [attemptedIn_append, attemptedIn_of_mem (doAlert_pair_alertCall_mem heq)]
          · rename_i evs3 e heq3
            split
            · rename_i evs4 err4 heq4
              simp [attemptedIn_append, attemptedIn_of_mem (doAlert_pair_alertCall_mem heq)]
  · rename_i hg
    constructor
    · intro h'
      simp [attemptedIn] at h'
    · rintro ⟨h1, h2, h3⟩
      exact absurd ⟨h1, h2⟩ hg

theorem recoveryStep_attempted_lastRecoverAt {cfg : TickCfg} {env : TickEnv} {st1 : WdState}
    (h : attemptedIn (recoveryStep cfg env st1).evs = true) :
    (recoveryStep cfg env st1).st.lastRecoverAt = env.now := by
  have hg := (recoveryStep_attemptedIn cfg env st1).mp h
  unfold recoveryStep
  split
  · split
    · rename_i hc
      omega
    · split
      · rfl
      · split
        · rfl
        · split
          · rfl
  · rename_i hng
    exact absurd ⟨hg.1, hg.2.1⟩ hng

theorem recoveryStep_not_attempted_eq {cfg : TickCfg} {env : TickEnv} {st1 : WdState}
    (h : attemptedIn (recoveryStep cfg env st1).evs = false) :
    recoveryStep cfg env st1 = ⟨st1, [], none⟩ := by
  by_cases hg : cfg.recoverEnabled = true ∧ cfg.threshold ≤ st1.failures
  · by_cases hc : env.now - st1.lastRecoverAt < cfg.cooldownMs
    · exact recoveryStep_cooldown hc
    · exfalso
      have := (recoveryStep_attemptedIn cfg env st1).mpr ⟨hg.1, hg.2, by omega⟩
      rw [h] at this
      exact Bool.false_ne_true this
  · exact recoveryStep_not_triggered hg

theorem recoveryStep_err_none {cfg : TickCfg} {env : TickEnv} (st1 : WdState)
    (h : AlertOk env) : (recoveryStep cfg env st1).err = none := by
  unfold recoveryStep
  split
  · split
    · rfl
    · rw [h 1]
      rcases hda : doAlert cfg.alert (.ok ()) .attemptRecovery (attemptText cfg st1)
        with ⟨evs2, err2⟩
      have h2 : err2 = none := by
        have hx := doAlert_snd_eq_none cfg.alert .attemptRecovery (attemptText cfg st1)
        rw [hda] at hx
        exact hx
      subst h2
      dsimp only
      rcases hex : execRecovery cfg env with ⟨evs3, err3⟩
      cases err3 with
      | none => rfl
      | some e =>
        dsimp only
        rw [h 2]
        rcases hdb : doAlert cfg.alert (.ok ()) .recoveryFailed
            ("watchdog: recovery failed: " ++ e) with ⟨evs4, err4⟩
        have h4 : err4 = none := by
          have hx := doAlert_snd_eq_none cfg.alert .recoveryFailed
            ("watchdog: recovery failed: " ++ e)
          rw [hdb] at hx
          exact hx
        subst h4
        rfl
  · rfl

theorem recoveryStep_mem_alertCall {cfg : TickCfg} {env : TickEnv} {st1 : WdState}
    {k : AlertKind} {t : String} (h : Ev.alertCall k t ∈ (recoveryStep cfg env st1).evs) :
    k = .attemptRecovery ∨ k = .recoveryFailed := by
  unfold recoveryStep at h
  split at h
  · split at h
    · simp at h
    · split at h
      · rename_i evs2 e heq
        exact Or.inl (doAlert_pair_mem_alertCall heq h).1
      · rename_i evs2 heq
        split at h
        · rename_i evs3 heq3
          rw [List.mem_append] at h
          rcases h with h | h
          · exact Or.inl (doAlert_pair_mem_alertCall heq h).1
          · exfalso
            have hno := execRecovery_no_alertCall cfg env k t
            rw [heq3] at hno
            exact hno h
        · rename_i evs3 e heq3
          split at h
          rename_i evs4 err4 heq4
          rw [List.mem_append, List.mem_append] at h
          rcases h with (h | h) | h
          · exact Or.inl (doAlert_pair_mem_alertCall heq h).1
          · exfalso
            have hno := execRecovery_no_alertCall cfg env k t
            rw [heq3] at hno
            exact hno h
          · exact Or.inr (doAlert_pair_mem_alertCall heq4 h).1
  · simp at h

theorem recoveryStep_no_statusFailure {cfg : TickCfg} {env : TickEnv} {st1 : WdState}
    {t : String} (h : Ev.alertCall .statusFailure t ∈ (recoveryStep cfg env st1).evs) :
    False := by
  rcases recoveryStep_mem_alertCall h with h' | h' <;> cases h'

theorem recoveryStep_no_statusRecovered {cfg : TickCfg} {env : TickEnv} {st1 : WdState}
    {t : String} (h : Ev.alertCall .statusRecovered t ∈ (recoveryStep cfg env st1).evs) :
    False := by
  rcases recoveryStep_mem_alertCall h with h' | h' <;> cases h'

theorem recoveryStep_execCall_lastRecoverAt {cfg : TickCfg} {env : TickEnv} {st1 : WdState}
    {b : String} {args : List String}
    (h : Ev.execCall b args ∈ (recoveryStep cfg env st1).evs) :
    (recoveryStep cfg env st1).st.lastRecoverAt = env.now := by
  cases hA : attemptedIn (recoveryStep cfg env st1).evs
  · have hz := recoveryStep_not_attempted_eq hA
    rw [hz] at h
    simp at h
  · exact recoveryStep_attempted_lastRecoverAt hA

/-! ## Lemmas about one tick -/

theorem probeOk_eq {env : TickEnv} {ok : Bool} {m : String}
    (h : probeOutcome env.probe = (ok, m)) : probeOk env = ok := by
  unfold probeOk
  rw [h]

theorem tick_failures {cfg : TickCfg} {env : TickEnv} {st : WdState} (h : AlertOk env) :
    (tick cfg env st).st.failures = if probeOk env = true then 0 else st.failures + 1 := by
  unfold tick
  rcases hpo : probeOutcome env.probe with ⟨ok, m⟩
  rw [probeOk_eq hpo]
  cases ok
  · unfold tickCore
    simp only [Bool.false_eq_true, if_false]
    split
    · rfl
    · exact recoveryStep_failures cfg env
        { st with failures := st.failures + 1, lastStateOk := some false }
  · unfold tickCore
    simp only [if_true]
    split
    · rw [h 0]
      rcases hda : doAlert cfg.alert (.ok ()) .statusRecovered
          (formatStatus "gateway" true none env.nowIso) with ⟨evs, err⟩
      have h2 : err = none := by
        have hx := doAlert_snd_eq_none cfg.alert .statusRecovered
          (formatStatus "gateway" true none env.nowIso)
        rw [hda] at hx
        exact hx
      subst h2
      rfl
    · rfl

theorem tick_err_none {cfg : TickCfg} {env : TickEnv} {st : WdState} (h : AlertOk env) :
    (tick cfg env st).err = none := by
  unfold tick
  rcases hpo : probeOutcome env.probe with ⟨ok, m⟩
  cases ok
  · unfold tickCore
    dsimp only
    have hsnd : ∀ k t, (doAlert cfg.alert (env.sendRes 0) k t).2 = none := by
      intro k t
      rw [h 0]
      exact doAlert_snd_eq_none ..
    split
    · rename_i evs1 e heq
      exfalso
      by_cases hcond : st.failures + 1 = 1 ∨ st.failures + 1 = cfg.threshold
      · rw [if_pos hcond] at heq
        have := hsnd .statusFailure
          (formatStatus "gateway" false (some (failDetail m (st.failures + 1))) env.nowIso)
        rw [heq] at this
        cases this
      · rw [if_neg hcond] at heq
        cases heq
    · exact @recoveryStep_err_none cfg env
        { st with failures := st.failures + 1, lastStateOk := some false } h
  · unfold tickCore
    dsimp only
    split
    · rw [h 0]
      rcases hda : doAlert cfg.alert (.ok ()) .statusRecovered
          (formatStatus "gateway" true none env.nowIso) with ⟨evs, err⟩
      have h2 : err = none := by
        have hx := doAlert_snd_eq_none cfg.alert .statusRecovered
          (formatStatus "gateway" true none env.nowIso)
        rw [hda] at hx
        exact hx
      subst h2
      rfl
    · rfl

theorem doAlert_pair_no_execCall {a : AlertCfg} {r : Except String Unit} {k : AlertKind}
    {t : String} {evs : List Ev} {err : Option String} {b : String} {args : List String}
    (heq : doAlert a r k t = (evs, err)) : Ev.execCall b args ∉ evs := by
  intro hmem
  apply doAlert_no_execCall a r k t b args
  rw [heq]
  exact hmem

theorem doAlert_pair_attemptedIn {a : AlertCfg} {r : Except String Unit} {k : AlertKind}
    {t : String} {evs : List Ev} {err : Option String}
    (heq : doAlert a r k t = (evs, err)) :
    attemptedIn evs = isAttemptEv (Ev.alertCall k t) := by
  have hx := doAlert_attemptedIn a r k t
  rw [heq] at hx
  exact hx

theorem tick_statusFailure_iff (cfg : TickCfg) (env : TickEnv) (st : WdState) :
    (∃ t, Ev.alertCall .statusFailure t ∈ (tick cfg env st).evs) ↔
      (probeOk env = false ∧ (st.failures + 1 = 1 ∨ st.failures + 1 = cfg.threshold)) := by
  unfold tick
  rcases hpo : probeOutcome env.probe with ⟨ok, m⟩
  rw [probeOk_eq hpo]
  cases ok
  · unfold tickCore
    dsimp only
    split
    · rename_i evs1 e heq
      by_cases hcond : st.failures + 1 = 1 ∨ st.failures + 1 = cfg.threshold
      · rw [if_pos hcond] at heq
        constructor
        · intro _
          exact ⟨rfl, hcond⟩
        · intro _
          exact ⟨_, doAlert_pair_alertCall_mem heq⟩
      · rw [if_neg hcond] at heq
        simp at heq
    · rename_i evs1 heq
      by_cases hcond : st.failures + 1 = 1 ∨ st.failures + 1 = cfg.threshold
      · rw [if_pos hcond] at heq
        constructor
        · intro _
          exact ⟨rfl, hcond⟩
        · intro _
          refine ⟨formatStatus "gateway" false
            (some (failDetail m (st.failures + 1))) env.nowIso, ?_⟩
          rw [List.mem_append]
          exact Or.inl (doAlert_pair_alertCall_mem heq)
      · rw [if_neg hcond] at heq
        have hevs : evs1 = [] := by
          have := congrArg Prod.fst heq
          exact this.symm
        subst hevs
        constructor
        · rintro ⟨t, ht⟩
          rw [List.nil_append] at ht
          exact absurd (recoveryStep_no_statusFailure ht) (by simp)
        · rintro ⟨_, hc⟩
          exact absurd hc hcond
  · unfold tickCore
    dsimp only
    constructor
    · rintro ⟨t, ht⟩
      exfalso
      revert ht
      split
      · split
        · rename_i evs heq
          intro ht
          cases (doAlert_pair_mem_alertCall heq ht).1
        · rename_i evs heq
          intro ht
          cases (doAlert_pair_mem_alertCall heq ht).1
      · intro ht
        simp at ht
    · rintro ⟨hfalse, _⟩
      cases hfalse

theorem tick_statusRecovered_iff (cfg : TickCfg) (env : TickEnv) (st : WdState) :
    (∃ t, Ev.alertCall .statusRecovered t ∈ (tick cfg env st).evs) ↔
      (probeOk env = true ∧ st.lastStateOk = some false) := by
  unfold tick
  rcases hpo : probeOutcome env.probe with ⟨ok, m⟩
  rw [probeOk_eq hpo]
  cases ok
  · unfold tickCore
    dsimp only
    constructor
    · rintro ⟨t, ht⟩
      exfalso
      revert ht
      split
      · rename_i evs1 e heq
        intro ht
        by_cases hcond : st.failures + 1 = 1 ∨ st.failures + 1 = cfg.threshold
        · rw [if_pos hcond] at heq
          cases (doAlert_pair_mem_alertCall heq ht).1
        · rw [if_neg hcond] at heq
          simp at heq
      · rename_i evs1 heq
        intro ht
        rw [List.mem_append] at ht
        rcases ht with ht | ht
        · by_cases hcond : st.failures + 1 = 1 ∨ st.failures + 1 = cfg.threshold
          · rw [if_pos hcond] at heq
            cases (doAlert_pair_mem_alertCall heq ht).1
          · rw [if_neg hcond] at heq
            have hevs : evs1 = [] := (congrArg Prod.fst heq).symm
            subst hevs
            simp at ht
        · exact recoveryStep_no_statusRecovered ht
    · rintro ⟨hfalse, _⟩
      cases hfalse
  · unfold tickCore
    dsimp only
    split
    · rename_i hls
      split
      · rename_i evs e heq
        constructor
        · intro _
          exact ⟨rfl, hls⟩
        · intro _
          exact ⟨_, doAlert_pair_alertCall_mem heq⟩
      · rename_i evs heq
        constructor
        · intro _
          exact ⟨rfl, hls⟩
        · intro _
          exact ⟨_, doAlert_pair_alertCall_mem heq⟩
    · rename_i hls
      constructor
      · rintro ⟨t, ht⟩
        simp at ht
      · rintro ⟨_, hc⟩
        exact absurd hc hls

theorem tick_attempted {cfg : TickCfg} {env : TickEnv} {st : WdState}
    (h : attemptedIn (tick cfg env st).evs = true) :
    probeOk env = false ∧ cfg.recoverEnabled = true ∧ cfg.threshold ≤ st.failures + 1 ∧
      cfg.cooldownMs ≤ env.now - st.lastRecoverAt ∧
      (tick cfg env st).st.lastRecoverAt = env.now := by
  unfold tick at h ⊢
  rcases hpo : probeOutcome env.probe with ⟨ok, m⟩
  rw [hpo] at h
  rw [probeOk_eq hpo]
  cases ok
  · unfold tickCore at h ⊢
    dsimp only at h ⊢
    revert h
    split
    · rename_i evs1 e heq
      intro h
      exfalso
      by_cases hcond : st.failures + 1 = 1 ∨ st.failures + 1 = cfg.threshold
      · rw [if_pos hcond] at heq
        rw [doAlert_pair_attemptedIn heq] at h
        cases h
      · rw [if_neg hcond] at heq
        simp at heq
    · rename_i evs1 heq
      intro h
      have hevs1 : attemptedIn evs1 = false := by
        by_cases hcond : st.failures + 1 = 1 ∨ st.failures + 1 = cfg.threshold
        · rw [if_pos hcond] at heq
          rw [doAlert_pair_attemptedIn heq]
          rfl
        · rw [if_neg hcond] at heq
          have hevs : evs1 = [] := (congrArg Prod.fst heq).symm
          subst hevs
          rfl
      rw [attemptedIn_append, hevs1, Bool.false_or] at h
      have hrs := (recoveryStep_attemptedIn cfg env
        { st with failures := st.failures + 1, lastStateOk := some false }).mp h
      have hlast := recoveryStep_attempted_lastRecoverAt h
      exact ⟨rfl, hrs.1, hrs.2.1, hrs.2.2, hlast⟩
  · exfalso
    unfold tickCore at h
    dsimp only at h
    revert h
    split
    · split
      · rename_i evs e heq
        intro h
        rw [doAlert_pair_attemptedIn heq] at h
        cases h
      · rename_i evs heq
        intro h
        rw [doAlert_pair_attemptedIn heq] at h
        cases h
    · intro h
      cases h

theorem tick_not_attempted {cfg : TickCfg} {env : TickEnv} {st : WdState}
    (h : attemptedIn (tick cfg env st).evs = false) :
    (tick cfg env st).st.lastRecoverAt = st.lastRecoverAt := by
  unfold tick at h ⊢
  rcases hpo : probeOutcome env.probe with ⟨ok, m⟩
  rw [hpo] at h
  cases ok
  · unfold tickCore at h ⊢
    dsimp only at h ⊢
    revert h
    split
    · intro _
      rfl
    · rename_i evs1 heq
      intro h
      rw [attemptedIn_append, Bool.or_eq_false_iff] at h
      have hz := recoveryStep_not_attempted_eq h.2
      rw [hz]
  · unfold tickCore
    dsimp only
    split
    · split <;> rfl
    · rfl

theorem tick_statusFailure_text {cfg : TickCfg} {env : TickEnv} {st : WdState} {m : String}
    (hpo : probeOutcome env.probe = (false, m))
    (hcond : st.failures + 1 = 1 ∨ st.failures + 1 = cfg.threshold) :
    Ev.alertCall .statusFailure
        (formatStatus "gateway" false (some (failDetail m (st.failures + 1))) env.nowIso)
      ∈ (tick cfg env st).evs := by
  unfold tick
  rw [hpo]
  unfold tickCore
  dsimp only
  split
  · rename_i evs1 e heq
    rw [if_pos hcond] at heq
    exact doAlert_pair_alertCall_mem heq
  · rename_i evs1 heq
    rw [if_pos hcond] at heq
    rw [List.mem_append]
    exact Or.inl (doAlert_pair_alertCall_mem heq)

theorem tick_execCall_mem {cfg : TickCfg} {env : TickEnv} {st : WdState}
    {b : String} {args : List String} (h : Ev.execCall b args ∈ (tick cfg env st).evs) :
    (tick cfg env st).st.lastRecoverAt = env.now := by
  unfold tick at h ⊢
  rcases hpo : probeOutcome env.probe with ⟨ok, m⟩
  rw [hpo] at h
  cases ok
  · unfold tickCore at h ⊢
    dsimp only at h ⊢
    revert h
    split
    · rename_i evs1 e heq
      intro h
      exfalso
      by_cases hcond : st.failures + 1 = 1 ∨ st.failures + 1 = cfg.threshold
      · rw [if_pos hcond] at heq
        exact doAlert_pair_no_execCall heq h
      · rw [if_neg hcond] at heq
        simp at heq
    · rename_i evs1 heq
      intro h
      rw [List.mem_append] at h
      rcases h with h | h
      · exfalso
        by_cases hcond : st.failures + 1 = 1 ∨ st.failures + 1 = cfg.threshold
        · rw [if_pos hcond] at heq
          exact doAlert_pair_no_execCall heq h
        · rw [if_neg hcond] at heq
          have hevs : evs1 = [] := (congrArg Prod.fst heq).symm
          subst hevs
          simp at h
      · exact recoveryStep_execCall_lastRecoverAt h
  · exfalso
    unfold tickCore at h
    dsimp only at h
    revert h
    split
    · split
      · rename_i evs e heq
        intro h
        exact doAlert_pair_no_execCall heq h
      · rename_i evs heq
        intro h
        exact doAlert_pair_no_execCall heq h
    · intro h
      cases h

theorem recoveryStep_unknown {cfg : TickCfg} {env : TickEnv} {st1 : WdState}
    (hAlert : AlertOk env) (hg : cfg.recoverEnabled = true)
    (hthr : cfg.threshold ≤ st1.failures)
    (hcool : cfg.cooldownMs ≤ env.now - st1.lastRecoverAt)
    (hact : cfg.recoverAction ≠ "gateway-restart") :
    (Ev.alertCall .recoveryFailed
        ("watchdog: recovery failed: " ++ ("unknown recover.action: " ++ cfg.recoverAction))
        ∈ (recoveryStep cfg env st1).evs) ∧
      (∀ b args, Ev.execCall b args ∉ (recoveryStep cfg env st1).evs) ∧
      (recoveryStep cfg env st1).err = none ∧
      (recoveryStep cfg env st1).st = { st1 with lastRecoverAt := env.now } := by
  unfold recoveryStep
  rw [if_pos ⟨hg, hthr⟩, if_neg (by omega)]
  rw [hAlert 1]
  rcases hda : doAlert cfg.alert (.ok ()) .attemptRecovery (attemptText cfg st1)
    with ⟨evs2, err2⟩
  have h2 : err2 = none := by
    have hx := doAlert_snd_eq_none cfg.alert .attemptRecovery (attemptText cfg st1)
    rw [hda] at hx
    exact hx
  subst h2
  dsimp only
  rw [execRecovery_unknown env hact]
  dsimp only
  rw [hAlert 2]
  rcases hdb : doAlert cfg.alert (.ok ()) .recoveryFailed
      ("watchdog: recovery failed: " ++ ("unknown recover.action: " ++ cfg.recoverAction))
    with ⟨evs4, err4⟩
  have h4 : err4 = none := by
    have hx := doAlert_snd_eq_none cfg.alert .recoveryFailed
      ("watchdog: recovery failed: " ++ ("unknown recover.action: " ++ cfg.recoverAction))
    rw [hdb] at hx
    exact hx
  subst h4
  refine ⟨?_, ?_, rfl, rfl⟩
  · rw [List.mem_append]
    exact Or.inr (doAlert_pair_alertCall_mem hdb)
  · intro b args hmem
    rw [List.mem_append, List.mem_append] at hmem
    rcases hmem with (hmem | hmem) | hmem
    · exact doAlert_pair_no_execCall hda hmem
    · simp at hmem
    · exact doAlert_pair_no_execCall hdb hmem

theorem recoveryStep_execFail {cfg : TickCfg} {env : TickEnv} {st1 : WdState} {e : String}
    (hAlert : AlertOk env) (hg : cfg.recoverEnabled = true)
    (hthr : cfg.threshold ≤ st1.failures)
    (hcool : cfg.cooldownMs ≤ env.now - st1.lastRecoverAt)
    (hact : cfg.recoverAction = "gateway-restart") (hexec : env.execRes = .error e) :
    (Ev.execCall "clawdbot" ["gateway", "restart"] ∈ (recoveryStep cfg env st1).evs) ∧
      (Ev.alertCall .recoveryFailed ("watchdog: recovery failed: " ++ e)
        ∈ (recoveryStep cfg env st1).evs) ∧
      (recoveryStep cfg env st1).err = none ∧
      (recoveryStep cfg env st1).st = { st1 with lastRecoverAt := env.now } := by
  have hex : execRecovery cfg env = ([Ev.execCall "clawdbot" ["gateway", "restart"]], some e) := by
    unfold execRecovery
    rw [if_pos hact, hexec]
  unfold recoveryStep
  rw [if_pos ⟨hg, hthr⟩, if_neg (by omega)]
  rw [hAlert 1]
  rcases hda : doAlert cfg.alert (.ok ()) .attemptRecovery (attemptText cfg st1)
    with ⟨evs2, err2⟩
  have h2 : err2 = none := by
    have hx := doAlert_snd_eq_none cfg.alert .attemptRecovery (attemptText cfg st1)
    rw [hda] at hx
    exact hx
  subst h2
  dsimp only
  rw [hex]
  dsimp only
  rw [hAlert 2]
  rcases hdb : doAlert cfg.alert (.ok ()) .recoveryFailed
      ("watchdog: recovery failed: " ++ e) with ⟨evs4, err4⟩
  have h4 : err4 = none := by
    have hx := doAlert_snd_eq_none cfg.alert .recoveryFailed
      ("watchdog: recovery failed: " ++ e)
    rw [hdb] at hx
    exact hx
  subst h4
  refine ⟨?_, ?_, rfl, rfl⟩
  · rw [List.mem_append, List.mem_append]
    exact Or.inl (Or.inr (by simp))
  · rw [List.mem_append]
    exact Or.inr (doAlert_pair_alertCall_mem hdb)

/-! ## Trace lemmas -/

/-- Left fold of the failure counter over a sequence of probe outcomes
(`true` = healthy). -/
def countFail (f : Nat) : List Bool → Nat
  | [] => f
  | b :: rest => countFail (if b then 0 else f + 1) rest

theorem runTicks_failures (cfg : TickCfg) :
    ∀ (envs : List TickEnv) (s : WdState), (∀ e ∈ envs, AlertOk e) →
      (runTicks cfg envs s).failures = countFail s.failures (envs.map probeOk) := by
  intro envs
  induction envs with
  | nil =>
    intro s _
    rfl
  | cons e rest ih =>
    intro s h
    have he : AlertOk e := h e (List.mem_cons_self e rest)
    have hrest : ∀ x ∈ rest, AlertOk x := fun x hx => h x (List.mem_cons_of_mem e hx)
    show (runTicks cfg rest (tick cfg e s).st).failures = _
    rw [ih (tick cfg e s).st hrest, tick_failures he]
    simp only [List.map_cons]
    show _ = countFail (if probeOk e then 0 else s.failures + 1) (rest.map probeOk)
    split <;> rfl

theorem countFail_append_singleton (b : Bool) :
    ∀ (l : List Bool) (f : Nat), countFail f (l ++ [b]) = if b then 0 else countFail f l + 1 := by
  intro l
  induction l with
  | nil =>
    intro f
    cases b <;> rfl
  | cons a l ih =>
    intro f
    show countFail (if a then 0 else f + 1) (l ++ [b]) = _
    rw [ih]
    rfl

theorem trailingFailures_append_singleton (l : List Bool) (b : Bool) :
    trailingFailures (l ++ [b]) = if b then 0 else trailingFailures l + 1 := by
  unfold trailingFailures
  rw [List.reverse_append]
  cases b <;> simp [List.takeWhile_cons]

theorem countFail_zero_eq_trailing (l : List Bool) :
    countFail 0 l = trailingFailures l := by
  induction l using List.reverseRecOn with
  | nil => rfl
  | append_singleton l b ih =>
    rw [countFail_append_singleton, trailingFailures_append_singleton, ih]

theorem attemptTimes_cons (t : Int) (evs : List Ev) (l : List (Int × List Ev)) :
    attemptTimes ((t, evs) :: l) =
      if attemptedIn evs = true then t :: attemptTimes l else attemptTimes l := by
  unfold attemptTimes
  by_cases hc : attemptedIn evs = true
  · simp [List.filter_cons, hc]
  · simp [List.filter_cons, hc]

theorem runEvents_chain (cfg : TickCfg) :
    ∀ (envs : List TickEnv) (s : WdState),
      List.Chain' (fun a b => cfg.cooldownMs ≤ b - a)
        (s.lastRecoverAt :: attemptTimes (runEvents cfg envs s)) := by
  intro envs
  induction envs with
  | nil =>
    intro s
    simp [runEvents, attemptTimes]
  | cons e rest ih =>
    intro s
    show List.Chain' _ (s.lastRecoverAt ::
      attemptTimes ((e.now, (tick cfg e s).evs) :: runEvents cfg rest (tick cfg e s).st))
    rw [attemptTimes_cons]
    split <;> rename_i hA
    · have hfacts := tick_attempted hA
      rw [List.chain'_cons]
      constructor
      · exact hfacts.2.2.2.1
      · have := ih (tick cfg e s).st
        rw [hfacts.2.2.2.2] at this
        exact this
    · have hkeep := tick_not_attempted (by simpa using hA)
      have := ih (tick cfg e s).st
      rw [hkeep] at this
      exact this

/-! ## Lemmas about character indexing and extraction -/

theorem lastIdxOfAux_eq_none_of_not_mem {c : Char} : ∀ {l : List Char},
    c ∉ l → lastIdxOfAux c l = none := by
  intro l
  induction l with
  | nil =>
    intro _
    rfl
  | cons x rest ih =>
    intro h
    have hx : ¬x = c := fun hh => h (hh ▸ List.mem_cons_self x rest)
    have hr : c ∉ rest := fun hh => h (List.mem_cons_of_mem x hh)
    unfold lastIdxOfAux
    rw [ih hr, if_neg hx]

theorem lastIdxOfAux_isSome_of_mem {c : Char} : ∀ {l : List Char},
    c ∈ l → (lastIdxOfAux c l).isSome = true := by
  intro l
  induction l with
  | nil =>
    intro h
    cases h
  | cons x rest ih =>
    intro h
    unfold lastIdxOfAux
    rcases hr : lastIdxOfAux c rest with _ | j
    · rcases List.mem_cons.mp h with h | h
      · rw [if_pos h.symm]
        rfl
      · have hsome := ih h
        rw [hr] at hsome
        cases hsome
    · rfl

theorem firstIdxOfAux_eq_none_of_not_mem {c : Char} : ∀ {l : List Char},
    c ∉ l → firstIdxOfAux c l = none := by
  intro l
  induction l with
  | nil =>
    intro _
    rfl
  | cons x rest ih =>
    intro h
    have hx : ¬x = c := fun hh => h (hh ▸ List.mem_cons_self x rest)
    have hr : c ∉ rest := fun hh => h (List.mem_cons_of_mem x hh)
    unfold firstIdxOfAux
    rw [ih hr, if_neg hx]
    rfl

theorem firstIdxOfAux_isSome_of_mem {c : Char} : ∀ {l : List Char},
    c ∈ l → (firstIdxOfAux c l).isSome = true := by
  intro l
  induction l with
  | nil =>
    intro h
    cases h
  | cons x rest ih =>
    intro h
    unfold firstIdxOfAux
    by_cases hx : x = c
    · rw [if_pos hx]
      rfl
    · rw [if_neg hx]
      rcases List.mem_cons.mp h with h | h
      · exact absurd h.symm hx
      · have hsome := ih h
        rcases hr : firstIdxOfAux c rest with _ | j
        · rw [hr] at hsome
          cases hsome
        · rfl

theorem lastIdxOfAux_append_of_not_mem_left {c : Char} {l2 : List Char} :
    ∀ {l1 : List Char}, c ∉ l1 →
      lastIdxOfAux c (l1 ++ l2) =
        match lastIdxOfAux c l2 with
        | some j => some (l1.length + j)
        | none => none := by
  intro l1
  induction l1 with
  | nil =>
    intro _
    rcases h2 : lastIdxOfAux c l2 with _ | j <;> simp [h2]
  | cons x rest ih =>
    intro h
    have hx : ¬x = c := fun hh => h (hh ▸ List.mem_cons_self x rest)
    have hr : c ∉ rest := fun hh => h (List.mem_cons_of_mem x hh)
    rcases h2 : lastIdxOfAux c l2 with _ | j
    · show lastIdxOfAux c (x :: (rest ++ l2)) = none
      unfold lastIdxOfAux
      rw [ih hr, h2]
      exact if_neg hx
    · show lastIdxOfAux c (x :: (rest ++ l2)) = some ((x :: rest).length + j)
      unfold lastIdxOfAux
      rw [ih hr, h2]
      show some (rest.length + j + 1) = some ((x :: rest).length + j)
      rw [Option.some.injEq, List.length_cons]
      omega

theorem lastIdxOfAux_single_head {c : Char} {tl : List Char} (h : c ∉ tl) :
    lastIdxOfAux c (c :: tl) = some 0 := by
  unfold lastIdxOfAux
  rw [lastIdxOfAux_eq_none_of_not_mem h, if_pos rfl]

/-! ## Lemmas about `checkHealth` -/

theorem checkHealth_first_ok {bin : String} {ex : Except String (String × String)} {j : J}
    (rest : List (String × Except String (String × String)))
    (hex : runGatewayHealth ex = .ok j) :
    ∀ (pre : List (String × Except String (String × String))),
      (∀ p ∈ pre, ∃ msg, runGatewayHealth p.2 = .error msg) →
      ∀ acc, checkHealthGo (pre ++ (bin, ex) :: rest) acc = .ok (healthOutcomeOf bin j) := by
  intro pre
  induction pre with
  | nil =>
    intro _ acc
    show checkHealthGo ((bin, ex) :: rest) acc = _
    unfold checkHealthGo
    rw [hex]
  | cons p pre ih =>
    intro h acc
    obtain ⟨msg, hmsg⟩ := h p (List.mem_cons_self p pre)
    have hpre : ∀ q ∈ pre, ∃ m, runGatewayHealth q.2 = .error m :=
      fun q hq => h q (List.mem_cons_of_mem p hq)
    rcases p with ⟨pbin, pex⟩
    show checkHealthGo ((pbin, pex) :: (pre ++ (bin, ex) :: rest)) acc = _
    unfold checkHealthGo
    rw [hmsg]
    exact ih hpre (some msg)

theorem checkHealth_all_error {bin : String} {ex : Except String (String × String)}
    {e : String} (hex : runGatewayHealth ex = .error e) :
    ∀ (pre : List (String × Except String (String × String))),
      (∀ p ∈ pre, ∃ msg, runGatewayHealth p.2 = .error msg) →
      ∀ acc, checkHealthGo (pre ++ [(bin, ex)]) acc = .error e := by
  intro pre
  induction pre with
  | nil =>
    intro _ acc
    show checkHealthGo [(bin, ex)] acc = _
    unfold checkHealthGo
    rw [hex]
    rfl
  | cons p pre ih =>
    intro h acc
    obtain ⟨msg, hmsg⟩ := h p (List.mem_cons_self p pre)
    have hpre : ∀ q ∈ pre, ∃ m, runGatewayHealth q.2 = .error m :=
      fun q hq => h q (List.mem_cons_of_mem p hq)
    rcases p with ⟨pbin, pex⟩
    show checkHealthGo ((pbin, pex) :: (pre ++ [(bin, ex)])) acc = _
    unfold checkHealthGo
    rw [hmsg]
    exact ih hpre (some msg)

theorem extract_strict_ok {parse : String → Option J} {text : String} {i : Nat} {v : J}
    (h1 : lastIdxOfAux lbrace text.toList = some i)
    (h2 : parse ⟨text.toList.drop i⟩ = some v) :
    extractLastJsonObject parse text = .ok v := by
  unfold extractLastJsonObject
  dsimp only
  rw [h1]
  dsimp only
  rw [h2]

theorem extract_fallback_ok {parse : String → Option J} {text : String} {i s2 e2 : Nat}
    {v : J} (h1 : lastIdxOfAux lbrace text.toList = some i)
    (h2 : parse ⟨text.toList.drop i⟩ = none)
    (h3 : firstIdxOfAux lbrace text.toList = some s2)
    (h4 : lastIdxOfAux rbrace text.toList = some e2) (h5 : s2 < e2)
    (h6 : parse ⟨(text.toList.take (e2 + 1)).drop s2⟩ = some v) :
    extractLastJsonObject parse text = .ok v := by
  unfold extractLastJsonObject
  dsimp only
  rw [h1]
  dsimp only
  rw [h2, h3, h4]
  dsimp only
  rw [if_pos h5, h6]

theorem extract_error_iff (parse : String → Option J) (text : String) :
    (∃ msg, extractLastJsonObject parse text = .error msg) ↔
      ((∀ i, lastIdxOfAux lbrace text.toList = some i → parse ⟨text.toList.drop i⟩ = none) ∧
        (∀ s2 e2, firstIdxOfAux lbrace text.toList = some s2 →
          lastIdxOfAux rbrace text.toList = some e2 → s2 < e2 →
          parse ⟨(text.toList.take (e2 + 1)).drop s2⟩ = none)) := by
  unfold extractLastJsonObject
  dsimp only
  rcases hlast : lastIdxOfAux lbrace text.toList with _ | i
  · have hnotmem : lbrace ∉ text.toList := by
      by_contra hmem
      have hsome := lastIdxOfAux_isSome_of_mem hmem
      rw [hlast] at hsome
      cases hsome
    constructor
    · intro _
      constructor
      · intro i hi
        cases hi
      · intro s2 e2 hf _ _
        rw [firstIdxOfAux_eq_none_of_not_mem hnotmem] at hf
        cases hf
    · intro _
      exact ⟨_, rfl⟩
  · dsimp only
    rcases hp : parse ⟨text.toList.drop i⟩ with _ | v
    · rcases hf : firstIdxOfAux lbrace text.toList with _ | s2
      · exfalso
        have hmem : lbrace ∈ text.toList := by
          by_contra hno
          rw [lastIdxOfAux_eq_none_of_not_mem hno] at hlast
          cases hlast
        have hsome := firstIdxOfAux_isSome_of_mem hmem
        rw [hf] at hsome
        cases hsome
      · rcases hl : lastIdxOfAux rbrace text.toList with _ | e2
        · constructor
          · intro _
            constructor
            · intro i' hi'
              rw [Option.some.injEq] at hi'
              rw [← hi']
              exact hp
            · intro s2' e2' _ hl' _
              cases hl'
          · intro _
            exact ⟨_, rfl⟩
        · dsimp only
          by_cases hse : s2 < e2
          · rw [if_pos hse]
            rcases hp2 : parse ⟨(text.toList.take (e2 + 1)).drop s2⟩ with _ | w
            · constructor
              · intro _
                constructor
                · intro i' hi'
                  rw [Option.some.injEq] at hi'
                  rw [← hi']
                  exact hp
                · intro s2' e2' hf' hl' _
                  rw [Option.some.injEq] at hf' hl'
                  rw [← hf', ← hl']
                  exact hp2
              · intro _
                exact ⟨_, rfl⟩
            · constructor
              · rintro ⟨msg, hmsg⟩
                cases hmsg
              · rintro ⟨_, hfall⟩
                have hx := hfall s2 e2 rfl rfl hse
                rw [hp2] at hx
                cases hx
          · rw [if_neg hse]
            constructor
            · intro _
              constructor
              · intro i' hi'
                rw [Option.some.injEq] at hi'
                rw [← hi']
                exact hp
              · intro s2' e2' hf' hl' hlt
                rw [Option.some.injEq] at hf' hl'
                exfalso
                apply hse
                omega
            · intro _
              exact ⟨_, rfl⟩
    · constructor
      · rintro ⟨msg, hmsg⟩
        cases hmsg
      · rintro ⟨hstrict, _⟩
        have hx := hstrict i rfl
        rw [hp] at hx
        cases hx

theorem string_toList_append (a b : String) : (a ++ b).toList = a.toList ++ b.toList := by
  rcases a with ⟨as⟩
  rcases b with ⟨bs⟩
  rfl

theorem extract_leading_junk {pre obj : String} {v : J}
    (hpre : lbrace ∉ pre.toList) (hhead : obj.toList.head? = some lbrace)
    (hcount : obj.toList.count lbrace = 1) (hparse : jsonParse obj = some v) :
    extractLastJsonObject jsonParse (pre ++ obj) = .ok v := by
  rcases hobj : obj.toList with _ | ⟨c, tl⟩
  · rw [hobj] at hhead
    cases hhead
  · rw [hobj, List.head?_cons, Option.some.injEq] at hhead
    subst hhead
    rw [hobj, List.count_cons_self] at hcount
    have htl : lbrace ∉ tl := by
      rw [← List.count_eq_zero]
      omega
    have hlastobj : lastIdxOfAux lbrace obj.toList = some 0 := by
      rw [hobj]
      exact lastIdxOfAux_single_head htl
    have hlast : lastIdxOfAux lbrace (pre ++ obj).toList = some pre.toList.length := by
      rw [string_toList_append, lastIdxOfAux_append_of_not_mem_left hpre, hlastobj]
      simp
    apply extract_strict_ok hlast
    rw [string_toList_append, List.drop_left]
    exact hparse

theorem tick_failures_unhealthy {cfg : TickCfg} {env : TickEnv} {st : WdState} {m : String}
    (hpo : probeOutcome env.probe = (false, m)) :
    (tick cfg env st).st.failures = st.failures + 1 := by
  unfold tick
  rw [hpo]
  unfold tickCore
  dsimp only
  split
  · rfl
  · exact recoveryStep_failures cfg env _

/-- On an unhealthy tick whose status alert did not throw, the tick result
is the failure-count update composed with the recovery section. -/
theorem tick_recovery_lift {cfg : TickCfg} {env : TickEnv} {st : WdState} {m : String}
    (hpo : probeOutcome env.probe = (false, m)) (hA : AlertOk env) :
    ∃ evs1 : List Ev,
      (tick cfg env st).evs =
        evs1 ++ (recoveryStep cfg env
          { st with failures := st.failures + 1, lastStateOk := some false }).evs ∧
      (∀ b args, Ev.execCall b args ∉ evs1) ∧
      (tick cfg env st).err = (recoveryStep cfg env
          { st with failures := st.failures + 1, lastStateOk := some false }).err ∧
      (tick cfg env st).st = (recoveryStep cfg env
          { st with failures := st.failures + 1, lastStateOk := some false }).st := by
  unfold tick
  rw [hpo]
  unfold tickCore
  dsimp only
  split
  · rename_i evs1 e heq
    exfalso
    by_cases hcond : st.failures + 1 = 1 ∨ st.failures + 1 = cfg.threshold
    · rw [if_pos hcond, hA 0] at heq
      have hx := doAlert_snd_eq_none cfg.alert .statusFailure
        (formatStatus "gateway" false (some (failDetail m (st.failures + 1))) env.nowIso)
      rw [heq] at hx
      cases hx
    · rw [if_neg hcond] at heq
      simp at heq
  · rename_i evs1 heq
    refine ⟨evs1, rfl, ?_, rfl, rfl⟩
    intro b args hmem
    by_cases hcond : st.failures + 1 = 1 ∨ st.failures + 1 = cfg.threshold
    · rw [if_pos hcond] at heq
      exact doAlert_pair_no_execCall heq hmem
    · rw [if_neg hcond] at heq
      have hevs : evs1 = [] := (congrArg Prod.fst heq).symm
      subst hevs
      simp at hmem

/-! ## Claim theorems -/

/-- C1: over every sequence of probe outcomes processed by successive
ticks from the initial state (with alert deliveries succeeding, so that no
thrown alert aborts a tick), the `failures` counter equals the number of
consecutive unhealthy outcomes immediately preceding the current tick:
each unhealthy outcome increments it by one and exactly the healthy
outcomes reset it to zero. -/
theorem c1_consecutive_failures (cfg : TickCfg) (envs : List TickEnv)
    (hA : ∀ e ∈ envs, AlertOk e) :
    (runTicks cfg envs initState).failures = trailingFailures (envs.map probeOk) := by
  rw [runTicks_failures cfg envs initState hA]
  exact countFail_zero_eq_trailing (envs.map probeOk)

theorem c1_consecutive_failures_witness :
    (runTicks cfgLogOnly [envFailAt 1, envOkAt 2, envFailAt 3, envFailAt 4]
      initState).failures = 2 := by
  have hA : ∀ e ∈ [envFailAt 1, envOkAt 2, envFailAt 3, envFailAt 4], AlertOk e := by
    intro e he
    simp only [List.mem_cons, List.not_mem_nil, or_false] at he
    rcases he with h | h | h | h <;> (subst h; intro i; rfl)
  rw [c1_consecutive_failures cfgLogOnly [envFailAt 1, envOkAt 2, envFailAt 3, envFailAt 4] hA]
  decide

/-- C2: a tick emits the gateway-DOWN status alert exactly when the probe
outcome is unhealthy and the new failure count is 1 or equals
`failureThreshold`, and it emits the recovery-confirmed status alert
exactly when the probe outcome is healthy and the previously known state
was unhealthy (in particular not on the very first healthy tick from the
unknown state).  The recovery-path alerts (`attemptRecovery` /
`recoveryFailed`) are tagged separately, as in the spec's transition
table. -/
theorem c2_alert_iff (cfg : TickCfg) (env : TickEnv) (st : WdState) :
    ((∃ t, Ev.alertCall .statusFailure t ∈ (tick cfg env st).evs) ↔
      (probeOk env = false ∧ (st.failures + 1 = 1 ∨ st.failures + 1 = cfg.threshold))) ∧
    ((∃ t, Ev.alertCall .statusRecovered t ∈ (tick cfg env st).evs) ↔
      (probeOk env = true ∧ st.lastStateOk = some false)) :=
  ⟨tick_statusFailure_iff cfg env st, tick_statusRecovered_iff cfg env st⟩

/-- C3: a recovery attempt on a tick happens only when `recover.enabled`
is true, the new failure count reaches the threshold, and the cooldown has
elapsed (the `lastRecoverAt` slot is its initial `0` or
`now - lastRecoverAt ≥ cooldownMs`); consequently over any run the times
of consecutive recovery attempts are at least `cooldownMs` apart, and no
attempt happens with recovery disabled. -/
theorem c3_recovery_gating (cfg : TickCfg) (env : TickEnv) (st : WdState)
    (envs : List TickEnv) :
    (attemptedIn (tick cfg env st).evs = true →
      (cfg.recoverEnabled = true ∧ cfg.threshold ≤ st.failures + 1 ∧
        (st.lastRecoverAt = 0 ∨ cfg.cooldownMs ≤ env.now - st.lastRecoverAt))) ∧
    (cfg.recoverEnabled = false → attemptedIn (tick cfg env st).evs = false) ∧
    List.Chain' (fun a b => cfg.cooldownMs ≤ b - a)
      (0 :: attemptTimes (runEvents cfg envs initState)) := by
  refine ⟨?_, ?_, ?_⟩
  · intro h
    have hx := tick_attempted h
    exact ⟨hx.2.1, hx.2.2.1, Or.inr hx.2.2.2.1⟩
  · intro h
    cases hA : attemptedIn (tick cfg env st).evs
    · rfl
    · have hx := tick_attempted hA
      rw [h] at hx
      cases hx.2.1
  · exact runEvents_chain cfg envs initState

theorem c3_recovery_gating_witness :
    attemptedIn (tick cfgLogOnly (envFailAt 1000) ⟨2, 0, some false⟩).evs = true ∧
      (cfgLogOnly.recoverEnabled = true ∧
        cfgLogOnly.threshold ≤ (⟨2, 0, some false⟩ : WdState).failures + 1 ∧
        ((⟨2, 0, some false⟩ : WdState).lastRecoverAt = 0 ∨
          cfgLogOnly.cooldownMs ≤
            (envFailAt 1000).now - (⟨2, 0, some false⟩ : WdState).lastRecoverAt)) :=
  ⟨by decide,
    (c3_recovery_gating cfgLogOnly (envFailAt 1000) ⟨2, 0, some false⟩ []).1 (by decide)⟩

/-- Configuration with a real Rocket.Chat destination, used to exhibit the
alert-delivery escape. -/
def cfgRocket : TickCfg :=
  { threshold := 3, cooldownMs := 0, alert := { channel := "rocketchat", toAddr := "#ops" },
    recoverEnabled := false, recoverAction := "gateway-restart" }

/-- A healthy-probe environment whose Rocket.Chat delivery fails. -/
def envSendFail : TickEnv :=
  { probe := .ok { ok := true, meta := "clawdbot" },
    sendRes := fun _ => .error "watchdog: Rocket.Chat send failed 500: oops",
    execRes := .ok (), now := 1000, nowIso := "TS" }

/-- C4 (counterexample): with a healthy probe after an unhealthy state, a
failing Rocket.Chat delivery of the recovery-confirmed alert escapes the
tick (`err` is the thrown message) and the remaining steps are skipped:
`failures` is not reset to 0 and `lastStateOk` stays `false`, contradicting
the claim that alert-delivery errors are caught and swallowed inside the
tick and that the tick completes its remaining steps. -/
theorem c4_counterexample :
    (tick cfgRocket envSendFail ⟨2, 0, some false⟩).err =
        some "watchdog: Rocket.Chat send failed 500: oops" ∧
      (tick cfgRocket envSendFail ⟨2, 0, some false⟩).st.failures = 2 ∧
      (tick cfgRocket envSendFail ⟨2, 0, some false⟩).st.lastStateOk = some false := by
  decide

/-- C4 (amended): probe failures and recovery-executor failures never
escape a tick — when the alert deliveries of a tick succeed, the tick
always runs to completion with no escaped exception, whatever the probe
and executor outcomes; an alert-delivery failure, however, propagates out
of the tick (see the counterexample), aborting that tick's remaining
steps, while the interval timer keeps scheduling subsequent ticks. -/
theorem c4_amended (cfg : TickCfg) (env : TickEnv) (st : WdState) (h : AlertOk env) :
    (tick cfg env st).err = none :=
  tick_err_none h

theorem c4_amended_witness :
    (tick cfgLogOnly
      { probe := .error "probe down", sendRes := fun _ => .ok (),
        execRes := .error "restart timed out", now := 5000, nowIso := "TS" }
      ⟨5, 0, some false⟩).err = none :=
  c4_amended cfgLogOnly
    { probe := .error "probe down", sendRes := fun _ => .ok (),
      execRes := .error "restart timed out", now := 5000, nowIso := "TS" }
    ⟨5, 0, some false⟩ (fun _ => rfl)

/-- C5 (counterexample): when both the flat `channels.rocketchat` record
and the `accounts.default` entry are present and valid,
`resolveRocketChatAccount` returns the `accounts.default` credentials, not
the flat record's, contradicting the claim that the flat record is
preferred. -/
theorem c5_counterexample :
    resolveRocketChatAccount (some
        ⟨⟨some "https://flat.example", some "uFlat", some "tFlat"⟩,
          some ⟨some "https://acct.example", some "uAcct", some "tAcct"⟩⟩) =
        some ⟨"https://acct.example", "uAcct", "tAcct"⟩ ∧
      (⟨"https://acct.example", "uAcct", "tAcct"⟩ : RcAccount) ≠
        ⟨"https://flat.example", "uFlat", "tFlat"⟩ := by
  decide

/-- C5 (amended): destination resolution prefers the `accounts.default`
entry when it is present with truthy credentials; the flat record is used
exactly when `accounts.default` is absent or invalid and the flat record
itself is valid; a missing `channels.rocketchat` subtree resolves to
nothing. -/
theorem c5_amended (rc : RcCfg) :
    (∀ acct, rc.accountsDefault = some acct → validRec acct = true →
      resolveRocketChatAccount (some rc) = some (credsOf acct)) ∧
    ((∀ acct, rc.accountsDefault = some acct → validRec acct = false) →
      validRec rc.flat = true →
      resolveRocketChatAccount (some rc) = some (credsOf rc.flat)) ∧
    resolveRocketChatAccount none = none := by
  refine ⟨?_, ?_, rfl⟩
  · intro acct hacct hvalid
    rcases rc with ⟨flat, acctD⟩
    cases hacct
    unfold resolveRocketChatAccount
    dsimp only
    rw [if_pos hvalid]
    rfl
  · intro hinvalid hflat
    rcases rc with ⟨flat, acctD⟩
    unfold resolveRocketChatAccount
    dsimp only
    rcases acctD with _ | acct
    · dsimp only
      rw [if_pos hflat]
      rfl
    · have hv := hinvalid acct rfl
      dsimp only
      rw [if_neg (by rw [hv]; exact Bool.false_ne_true), if_pos hflat]
      rfl

theorem c5_amended_witness :
    resolveRocketChatAccount (some
        ⟨⟨some "https://f", some "u", some "t"⟩,
          some ⟨some "https://a", some "u2", some "t2"⟩⟩) =
        some (credsOf ⟨some "https://a", some "u2", some "t2"⟩) ∧
      resolveRocketChatAccount (some ⟨⟨some "https://f", some "u", some "t"⟩, none⟩) =
        some (credsOf ⟨some "https://f", some "u", some "t"⟩) :=
  ⟨(c5_amended ⟨⟨some "https://f", some "u", some "t"⟩,
      some ⟨some "https://a", some "u2", some "t2"⟩⟩).1
        ⟨some "https://a", some "u2", some "t2"⟩ rfl (by decide),
    (c5_amended ⟨⟨some "https://f", some "u", some "t"⟩, none⟩).2.1
      (fun acct h => Option.noConfusion h) (by decide)⟩

/-- C6: the probe returns the outcome built from the first backend whose
attempt yields a parseable structured result — independent of any later
backends; when every attempt fails the probe fails with the last backend's
error message; and the state machine treats a failed probe as an unhealthy
outcome (the counter increments, the error message is folded into the
alert detail) and not as a fault that aborts the tick. -/
theorem c6_probe_fallback :
    (∀ (pre : List (String × Except String (String × String))) (bin : String)
        (ex : Except String (String × String))
        (rest : List (String × Except String (String × String))) (j : J),
      (∀ p ∈ pre, ∃ msg, runGatewayHealth p.2 = .error msg) →
      runGatewayHealth ex = .ok j →
      checkHealth (pre ++ (bin, ex) :: rest) = .ok (healthOutcomeOf bin j)) ∧
    (∀ (pre : List (String × Except String (String × String))) (bin : String)
        (ex : Except String (String × String)) (e : String),
      (∀ p ∈ pre, ∃ msg, runGatewayHealth p.2 = .error msg) →
      runGatewayHealth ex = .error e →
      checkHealth (pre ++ [(bin, ex)]) = .error e) ∧
    (∀ (cfg : TickCfg) (env : TickEnv) (st : WdState) (e : String),
      env.probe = .error e →
        ((tick cfg env st).st.failures = st.failures + 1 ∧
          (st.failures + 1 = 1 ∨ st.failures + 1 = cfg.threshold →
            Ev.alertCall .statusFailure
                (formatStatus "gateway" false
                  (some (failDetail e (st.failures + 1))) env.nowIso)
              ∈ (tick cfg env st).evs) ∧
          (AlertOk env → (tick cfg env st).err = none))) := by
  refine ⟨?_, ?_, ?_⟩
  · intro pre bin ex rest j hpre hex
    exact checkHealth_first_ok rest hex pre hpre none
  · intro pre bin ex e hpre hex
    exact checkHealth_all_error hex pre hpre none
  · intro cfg env st e hprobe
    have hpo : probeOutcome env.probe = (false, e) := by
      rw [hprobe]
      rfl
    exact ⟨tick_failures_unhealthy hpo,
      fun hcond => tick_statusFailure_text hpo hcond,
      fun hA => tick_err_none hA⟩

theorem c6_probe_fallback_witness :
    checkHealth [("clawdbot", .error "spawn clawdbot ENOENT"),
        ("openclaw", .ok ("x \x7b\"ok\":true\x7d", ""))] =
      .ok (healthOutcomeOf "openclaw" (J.obj [("ok", J.bool true)])) ∧
    checkHealth [("clawdbot", .error "boom1"), ("openclaw", .error "boom2")] =
      .error "boom2" := by
  constructor
  · exact c6_probe_fallback.1 [("clawdbot", .error "spawn clawdbot ENOENT")] "openclaw"
      (.ok ("x \x7b\"ok\":true\x7d", "")) [] (J.obj [("ok", J.bool true)])
      (by
        intro p hp
        simp only [List.mem_singleton] at hp
        subst hp
        exact ⟨"spawn clawdbot ENOENT", rfl⟩)
      (by rfl)
  · exact c6_probe_fallback.2.1 [("clawdbot", .error "boom1")] "openclaw"
      (.error "boom2") "boom2"
      (by
        intro p hp
        simp only [List.mem_singleton] at hp
        subst hp
        exact ⟨"boom1", rfl⟩)
      rfl

/-- C7: `extractLastJsonObject` returns the value parsed from the last
opening brace to the end of the text when that strict parse succeeds; when
it fails it returns the value parsed from the slice between the first
opening brace and the last closing brace when that parse succeeds; it
fails exactly when neither extraction yields a parseable object (including
the no-brace and inverted-slice cases); and for text consisting of
brace-free leading junk followed by one well-formed flat object, it
returns that object. -/
theorem c7_extract_last_json :
    (∀ (parse : String → Option J) (text : String) (i : Nat) (v : J),
        lastIdxOfAux lbrace text.toList = some i →
        parse ⟨text.toList.drop i⟩ = some v →
        extractLastJsonObject parse text = .ok v) ∧
    (∀ (parse : String → Option J) (text : String) (i s2 e2 : Nat) (v : J),
        lastIdxOfAux lbrace text.toList = some i →
        parse ⟨text.toList.drop i⟩ = none →
        firstIdxOfAux lbrace text.toList = some s2 →
        lastIdxOfAux rbrace text.toList = some e2 → s2 < e2 →
        parse ⟨(text.toList.take (e2 + 1)).drop s2⟩ = some v →
        extractLastJsonObject parse text = .ok v) ∧
    (∀ (parse : String → Option J) (text : String),
        (∃ msg, extractLastJsonObject parse text = .error msg) ↔
          ((∀ i, lastIdxOfAux lbrace text.toList = some i →
              parse ⟨text.toList.drop i⟩ = none) ∧
            (∀ s2 e2, firstIdxOfAux lbrace text.toList = some s2 →
              lastIdxOfAux rbrace text.toList = some e2 → s2 < e2 →
              parse ⟨(text.toList.take (e2 + 1)).drop s2⟩ = none))) ∧
    (∀ (pre obj : String) (v : J), lbrace ∉ pre.toList →
        obj.toList.head? = some lbrace → obj.toList.count lbrace = 1 →
        jsonParse obj = some v →
        extractLastJsonObject jsonParse (pre ++ obj) = .ok v) :=
  ⟨fun _ _ _ _ h1 h2 => extract_strict_ok h1 h2,
    fun _ _ _ _ _ _ h1 h2 h3 h4 h5 h6 => extract_fallback_ok h1 h2 h3 h4 h5 h6,
    fun parse text => extract_error_iff parse text,
    fun _ _ _ h1 h2 h3 h4 => extract_leading_junk h1 h2 h3 h4⟩

theorem c7_extract_last_json_witness :
    extractLastJsonObject jsonParse ("doctor says: " ++ "\x7b\"ok\":true\x7d") =
        .ok (J.obj [("ok", J.bool true)]) ∧
      extractLastJsonObject jsonParse "hi \x7b\"a\":\x7b\"b\":1\x7d\x7d" =
        .ok (J.obj [("a", J.obj [("b", J.num 1)])]) := by
  constructor
  · exact c7_extract_last_json.2.2.2 "doctor says: " "\x7b\"ok\":true\x7d"
      (J.obj [("ok", J.bool true)]) (by decide) (by decide) (by decide) (by rfl)
  · exact c7_extract_last_json.2.1 jsonParse "hi \x7b\"a\":\x7b\"b\":1\x7d\x7d"
      8 3 15 (J.obj [("a", J.obj [("b", J.num 1)])])
      (by decide) (by rfl) (by decide) (by decide) (by decide) (by rfl)

/-- C8: whenever the recovery executor is invoked in a tick, the final
state's `lastRecoverAt` is that tick's `now` (the timestamp is recorded
before the executor runs, so its outcome cannot prevent it); an
unrecognised action identifier produces a recovery-failed alert carrying
`unknown recover.action` with no process invocation at all; and an
executor failure produces a follow-up recovery-failed alert carrying the
executor's error while the tick still completes and the failure count
stays exactly the probe-driven `failures + 1`. -/
theorem c8_recovery_sequence (cfg : TickCfg) (env : TickEnv) (st : WdState) :
    (∀ b args, Ev.execCall b args ∈ (tick cfg env st).evs →
      (tick cfg env st).st.lastRecoverAt = env.now) ∧
    (∀ m, probeOutcome env.probe = (false, m) → AlertOk env →
      cfg.recoverEnabled = true → cfg.threshold ≤ st.failures + 1 →
      cfg.cooldownMs ≤ env.now - st.lastRecoverAt →
      cfg.recoverAction ≠ "gateway-restart" →
        ((∀ b args, Ev.execCall b args ∉ (tick cfg env st).evs) ∧
          Ev.alertCall .recoveryFailed
              ("watchdog: recovery failed: " ++
                ("unknown recover.action: " ++ cfg.recoverAction))
            ∈ (tick cfg env st).evs ∧
          (tick cfg env st).err = none ∧
          (tick cfg env st).st.failures = st.failures + 1)) ∧
    (∀ m e, probeOutcome env.probe = (false, m) → AlertOk env →
      cfg.recoverEnabled = true → cfg.threshold ≤ st.failures + 1 →
      cfg.cooldownMs ≤ env.now - st.lastRecoverAt →
      cfg.recoverAction = "gateway-restart" → env.execRes = .error e →
        (Ev.execCall "clawdbot" ["gateway", "restart"] ∈ (tick cfg env st).evs ∧
          Ev.alertCall .recoveryFailed ("watchdog: recovery failed: " ++ e)
            ∈ (tick cfg env st).evs ∧
          (tick cfg env st).err = none ∧
          (tick cfg env st).st.failures = st.failures + 1)) := by
  refine ⟨?_, ?_, ?_⟩
  · intro b args h
    exact tick_execCall_mem h
  · intro m hpo hA hg hthr hcool hact
    obtain ⟨evs1, hevs, hno1, herr, hst⟩ := tick_recovery_lift hpo hA
    have hu := @recoveryStep_unknown cfg env
      { st with failures := st.failures + 1, lastStateOk := some false }
      hA hg hthr hcool hact
    refine ⟨?_, ?_, ?_, ?_⟩
    · intro b args hmem
      rw [hevs, List.mem_append] at hmem
      rcases hmem with hmem | hmem
      · exact hno1 b args hmem
      · exact hu.2.1 b args hmem
    · rw [hevs, List.mem_append]
      exact Or.inr hu.1
    · rw [herr]
      exact hu.2.2.1
    · rw [hst, hu.2.2.2]
  · intro m e hpo hA hg hthr hcool hact hexec
    obtain ⟨evs1, hevs, hno1, herr, hst⟩ := tick_recovery_lift hpo hA
    have hu := @recoveryStep_execFail cfg env
      { st with failures := st.failures + 1, lastStateOk := some false } e
      hA hg hthr hcool hact hexec
    refine ⟨?_, ?_, ?_, ?_⟩
    · rw [hevs, List.mem_append]
      exact Or.inr hu.1
    · rw [hevs, List.mem_append]
      exact Or.inr hu.2.1
    · rw [herr]
      exact hu.2.2.1
    · rw [hst, hu.2.2.2]

/-- Configuration with an unrecognised recovery action. -/
def cfgBadAction : TickCfg := { cfgLogOnly with recoverAction := "reboot" }

/-- A failing-probe environment whose recovery executor fails. -/
def envExecFail : TickEnv :=
  { probe := .error "probe down", sendRes := fun _ => .ok (),
    execRes := .error "restart timed out", now := 999, nowIso := "TS" }

theorem c8_recovery_sequence_witness :
    (Ev.execCall "clawdbot" ["gateway", "restart"]
        ∈ (tick cfgLogOnly envExecFail ⟨2, 0, some false⟩).evs ∧
      Ev.alertCall .recoveryFailed ("watchdog: recovery failed: " ++ "restart timed out")
        ∈ (tick cfgLogOnly envExecFail ⟨2, 0, some false⟩).evs ∧
      (tick cfgLogOnly envExecFail ⟨2, 0, some false⟩).err = none ∧
      (tick cfgLogOnly envExecFail ⟨2, 0, some false⟩).st.failures =
        (⟨2, 0, some false⟩ : WdState).failures + 1) ∧
    ((∀ b args, Ev.execCall b args ∉ (tick cfgBadAction envExecFail ⟨2, 0, some false⟩).evs) ∧
      Ev.alertCall .recoveryFailed
          ("watchdog: recovery failed: " ++
            ("unknown recover.action: " ++ cfgBadAction.recoverAction))
        ∈ (tick cfgBadAction envExecFail ⟨2, 0, some false⟩).evs ∧
      (tick cfgBadAction envExecFail ⟨2, 0, some false⟩).err = none ∧
      (tick cfgBadAction envExecFail ⟨2, 0, some false⟩).st.failures =
        (⟨2, 0, some false⟩ : WdState).failures + 1) :=
  ⟨(c8_recovery_sequence cfgLogOnly envExecFail ⟨2, 0, some false⟩).2.2 "probe down"
      "restart timed out" rfl (fun _ => rfl) rfl (by decide) (by decide) rfl rfl,
    (c8_recovery_sequence cfgBadAction envExecFail ⟨2, 0, some false⟩).2.1 "probe down"
      rfl (fun _ => rfl) rfl (by decide) (by decide) (by decide)⟩

/-- C9: when no destination is configured (`alert.to = ""`) the alert is
routed to local logging only, and when the configured channel is not
`rocketchat` a warning is logged and the text is logged locally; in both
cases the external delivery is never invoked and `doAlert` returns without
throwing, whatever the would-be delivery outcome. -/
theorem c9_alert_degrade (a : AlertCfg) (r : Except String Unit) (k : AlertKind)
    (t : String) :
    (a.toAddr = "" → doAlert a r k t = ([.alertCall k t, .logInfo t], none)) ∧
    (a.toAddr ≠ "" → a.channel ≠ "rocketchat" →
      doAlert a r k t = ([.alertCall k t,
        .logWarn ("watchdog: unsupported alert.channel=" ++ a.channel ++ "; logging only"),
        .logInfo t], none)) ∧
    ((a.toAddr = "" ∨ a.channel ≠ "rocketchat") →
      ((doAlert a r k t).2 = none ∧ ∀ d tx, Ev.send d tx ∉ (doAlert a r k t).1)) := by
  refine ⟨?_, ?_, ?_⟩
  · intro h
    unfold doAlert
    rw [if_pos h]
  · intro h1 h2
    unfold doAlert
    rw [if_neg h1, if_pos h2]
  · intro h
    by_cases h1 : a.toAddr = ""
    · rw [show doAlert a r k t = ([.alertCall k t, .logInfo t], none) from by
        unfold doAlert
        rw [if_pos h1]]
      refine ⟨rfl, ?_⟩
      intro d tx
      simp
    · have h2 : a.channel ≠ "rocketchat" := by
        rcases h with h | h
        · exact absurd h h1
        · exact h
      rw [show doAlert a r k t = ([.alertCall k t,
          .logWarn ("watchdog: unsupported alert.channel=" ++ a.channel ++ "; logging only"),
          .logInfo t], none) from by
        unfold doAlert
        rw [if_neg h1, if_pos h2]]
      refine ⟨rfl, ?_⟩
      intro d tx
      simp

theorem c9_alert_degrade_witness :
    doAlert ⟨"rocketchat", ""⟩ (.error "network down") .statusFailure "gateway DOWN" =
        ([.alertCall .statusFailure "gateway DOWN", .logInfo "gateway DOWN"], none) ∧
      doAlert ⟨"slack", "#ops"⟩ (.error "network down") .statusFailure "gateway DOWN" =
        ([.alertCall .statusFailure "gateway DOWN",
          .logWarn ("watchdog: unsupported alert.channel=" ++ "slack" ++ "; logging only"),
          .logInfo "gateway DOWN"], none) :=
  ⟨(c9_alert_degrade ⟨"rocketchat", ""⟩ (.error "network down") .statusFailure
      "gateway DOWN").1 rfl,
    (c9_alert_degrade ⟨"slack", "#ops"⟩ (.error "network down") .statusFailure
      "gateway DOWN").2.1 (by decide) (by decide)⟩

/-- C10: `stop` always rewrites the service to the same record with the
timer slot cleared — so it never throws, it is idempotent, it is safe on
the initial (never-started or never-enabled) service, and after it runs no
further ticks are scheduled. -/
theorem c10_stop_idempotent (s : ServiceState) :
    stopService s = { s with timer := none } ∧
    stopService (stopService s) = stopService s ∧
    (stopService s).timer = none ∧
    ticksScheduled (stopService s) = false ∧
    stopService initialService = initialService ∧
    stopService (startService false s) = { s with timer := none } := by
  refine ⟨rfl, rfl, rfl, rfl, rfl, ?_⟩
  unfold startService
  rw [if_neg (by simp)]
  rfl

end Watchdog
